import Mathlib

/-!
Verification of `switchmate.py`, a command-line utility controlling Switchmate
BLE switches.  The Python source is shallowly embedded below: byte strings
become `List Nat` (each element an `ord` value `< 256`), Python's
arbitrary-precision integers become `Int`, masking with `0xff...f` becomes
reduction `% 2 ^ w`, and code paths that raise exceptions are modelled with
`Option` / an explicit `crash` result.
-/

namespace Switchmate

/-! ### Constants from `switchmate.py` -/

/-- Line 24: `SWITCHMATE_SERVICE = 'abd0f555eb40e7b2ac49ddeb83d32ba2'`. -/
def SWITCHMATE_SERVICE : String := "abd0f555eb40e7b2ac49ddeb83d32ba2"

/-- Line 26: `NOTIFY_VALUE = struct.pack('<BB', 0x01, 0x00)`, the two bytes `01 00`. -/
def NOTIFY_VALUE : List Nat := [0x01, 0x00]

/-- Line 28: `AUTH_NOTIFY_HANDLE = 0x0017`. -/
def AUTH_NOTIFY_HANDLE : Nat := 0x0017

/-- Line 29: `AUTH_HANDLE = 0x0016`. -/
def AUTH_HANDLE : Nat := 0x0016

/-- Line 30: `AUTH_INIT_VALUE = struct.pack('<BBBBBB', 0x00, 0x00, 0x00, 0x00, 0x01, 0x00)`. -/
def AUTH_INIT_VALUE : List Nat := [0x00, 0x00, 0x00, 0x00, 0x01, 0x00]

/-- Line 39: `STATE_NOTIFY_HANDLE = 0x002c`. -/
def STATE_NOTIFY_HANDLE : Nat := 0x002c

/-- Line 40: `TOGGLE_STATE_HANDLE = 0x0030`. -/
def TOGGLE_STATE_HANDLE : Nat := 0x0030

/-- Line 148: `SERVICES_AD_TYPE = 7` (inside `scan`). -/
def SERVICES_AD_TYPE : Nat := 7

/-- A Python 2 `str` of raw bytes: every element is an `ord` value below 256. -/
def isByteSeq (l : List Nat) : Prop := ∀ b ∈ l, b < 256

instance (l : List Nat) : Decidable (isByteSeq l) :=
  List.decidableBAll _ l

/-! ### Signing engine (lines 59-80)

`c_mul(a, b)` is `ctypes.c_int64((long(a) * b) & 0xffffffffffffffff).value`:
the product is truncated to its low 64 bits (`% 2 ^ 64`) and reinterpreted as
a two's-complement signed 64-bit value. -/

/-- Reinterpret a value in `[0, 2 ^ 64)` as a signed two's-complement 64-bit
integer, as `ctypes.c_int64(...).value` does. -/
def toSigned64 (n : Int) : Int := if n < 2 ^ 63 then n else n - 2 ^ 64

/-- Lines 59-63: multiplication with 64-bit overflow.  The source masks with
`0xffffffffffffffff`, i.e. keeps the low 64 bits, which is `% 2 ^ 64`. -/
def c_mul (a b : Int) : Int := toSigned64 ((a * b) % 2 ^ 64)

/-- `struct.pack('<Q', v)`: the eight bytes of `v`, least significant first
(defined for `0 ≤ v < 2 ^ 64`; this total model agrees with it there). -/
def packUInt64LE (v : Nat) : List Nat :=
  [v % 256, v / 2 ^ 8 % 256, v / 2 ^ 16 % 256, v / 2 ^ 24 % 256,
   v / 2 ^ 32 % 256, v / 2 ^ 40 % 256, v / 2 ^ 48 % 256, v / 2 ^ 56 % 256]

/-- Lines 65-78 of `sign`, up to (and including) building the combined 64-bit
value `shifted_hash | shifted_data_0 | shifted_data_1` that line 79 packs.
`data` with fewer than 2 bytes makes `ord(data[0])` / `ord(data[1])` raise, so
no value is produced (`none`).  The mask `x & 0xffffffff` keeps the low 32
bits of the two's-complement representation of `x`, i.e. `x % 2 ^ 32` (a
nonnegative value). -/
def signCombined (data key : List Nat) : Option Nat :=
  match data with
  | d0 :: d1 :: rest =>
    let blob := (d0 :: d1 :: rest) ++ key
    let x : Int := blob.foldl
      (fun (x : Int) (c : Nat) => Int.xor (Int.xor (c_mul 1000003 x) (c : Int)) (blob.length : Int))
      ((d0 <<< 7 : Nat) : Int)
    let shifted_hash : Nat := (x % 2 ^ 32).toNat <<< 16
    let shifted_data_0 : Nat := d0 <<< 48
    let shifted_data_1 : Nat := d1 <<< 56
    some (shifted_hash ||| shifted_data_0 ||| shifted_data_1)
  | _ => none

/-- Lines 65-80: the full `sign(data, key)`; line 79 packs the combined value
little-endian into 8 bytes and drops the first two (`[2:]`). -/
def sign (data key : List Nat) : Option (List Nat) :=
  (signCombined data key).map (fun v => (packUInt64LE v).drop 2)

/-! ### The reference algorithm, written from the specification's words -/

/-- Spec wording: `wrap64` truncates to the low 64 bits as a two's-complement
signed 64-bit integer. -/
def wrap64 (n : Int) : Int :=
  if n % 2 ^ 64 < 2 ^ 63 then n % 2 ^ 64 else n % 2 ^ 64 - 2 ^ 64

/-- The reference signing algorithm exactly as the specification states it:
concatenate `blob = data ++ key`; seed `x = blob[0] << 7`; for each byte `c`
of `blob` (the seed byte included) set `x = wrap64(x * 1000003) XOR c XOR
length(blob)`; take `(x & 0xffffffff) << 16`, OR in `data[0] << 48` and
`data[1] << 56`, pack little-endian into 8 bytes and drop the first 2. -/
def signSpec (data key : List Nat) : Option (List Nat) :=
  match data with
  | d0 :: d1 :: rest =>
    let blob := (d0 :: d1 :: rest) ++ key
    let x : Int := blob.foldl
      (fun (x : Int) (c : Nat) => Int.xor (Int.xor (wrap64 (x * 1000003)) (c : Int)) (blob.length : Int))
      ((d0 <<< 7 : Nat) : Int)
    some ((packUInt64LE
      (((x % 2 ^ 32).toNat <<< 16) ||| (d0 <<< 48) ||| (d1 <<< 56))).drop 2)
  | _ => none

/-! ### Helper lemmas about the signing arithmetic -/

lemma c_mul_eq_wrap64 (x : Int) : c_mul 1000003 x = wrap64 (x * 1000003) := by
  unfold c_mul toSigned64 wrap64
  rw [Int.mul_comm]

lemma foldl_hash_eq (L : Int) (blob : List Nat) (x : Int) :
    blob.foldl (fun (x : Int) (c : Nat) => Int.xor (Int.xor (c_mul 1000003 x) (c : Int)) L) x
      = blob.foldl (fun (x : Int) (c : Nat) => Int.xor (Int.xor (wrap64 (x * 1000003)) (c : Int)) L) x := by
  induction blob generalizing x with
  | nil => rfl
  | cons c rest ih =>
    simp only [List.foldl_cons]
    rw [c_mul_eq_wrap64 x]
    exact ih _

lemma lor_disjoint_add (k a b : Nat) (hb : b < 2 ^ k) :
    b ||| 2 ^ k * a = b + 2 ^ k * a := by
  rw [Nat.or_comm, ← Nat.mul_add_lt_is_or hb a, Nat.add_comm]

lemma or_decompose (h d0 d1 : Nat) (hh : h < 2 ^ 32) (h0 : d0 < 256) :
    h <<< 16 ||| d0 <<< 48 ||| d1 <<< 56 = h * 2 ^ 16 + d0 * 2 ^ 48 + d1 * 2 ^ 56 := by
  have hA : h * 2 ^ 16 < 2 ^ 48 := by
    calc h * 2 ^ 16 < 2 ^ 32 * 2 ^ 16 :=
          Nat.mul_lt_mul_of_pos_right hh (by positivity)
      _ = 2 ^ 48 := by norm_num
  have hB : h * 2 ^ 16 + 2 ^ 48 * d0 < 2 ^ 56 := by
    have hd : 2 ^ 48 * d0 ≤ 2 ^ 48 * 255 := Nat.mul_le_mul_left _ (by omega)
    calc h * 2 ^ 16 + 2 ^ 48 * d0 < 2 ^ 48 + 2 ^ 48 * 255 :=
          add_lt_add_of_lt_of_le hA hd
      _ ≤ 2 ^ 56 := by norm_num
  rw [Nat.shiftLeft_eq, Nat.shiftLeft_eq, Nat.shiftLeft_eq,
    Nat.mul_comm d0 (2 ^ 48), Nat.mul_comm d1 (2 ^ 56),
    lor_disjoint_add 48 d0 (h * 2 ^ 16) hA,
    lor_disjoint_add 56 d1 (h * 2 ^ 16 + 2 ^ 48 * d0) hB]

lemma pack_props (h d0 d1 : Nat) (hh : h < 2 ^ 32) (h0 : d0 < 256) (h1 : d1 < 256) :
    (h * 2 ^ 16 + d0 * 2 ^ 48 + d1 * 2 ^ 56) % 2 ^ 16 = 0 ∧
    (h * 2 ^ 16 + d0 * 2 ^ 48 + d1 * 2 ^ 56) % 256 = 0 ∧
    (h * 2 ^ 16 + d0 * 2 ^ 48 + d1 * 2 ^ 56) / 2 ^ 8 % 256 = 0 ∧
    (h * 2 ^ 16 + d0 * 2 ^ 48 + d1 * 2 ^ 56) / 2 ^ 48 % 256 = d0 ∧
    (h * 2 ^ 16 + d0 * 2 ^ 48 + d1 * 2 ^ 56) / 2 ^ 56 % 256 = d1 := by
  have e8 : (2 : Nat) ^ 8 = 256 := by norm_num
  have e16 : (2 : Nat) ^ 16 = 65536 := by norm_num
  have e32 : (2 : Nat) ^ 32 = 4294967296 := by norm_num
  have e48 : (2 : Nat) ^ 48 = 281474976710656 := by norm_num
  have e56 : (2 : Nat) ^ 56 = 72057594037927936 := by norm_num
  rw [e32] at hh
  simp only [e8, e16, e48, e56]
  omega

/-! ### Notification dispatcher (lines 82-98)

`NotificationDelegate.handleNotification(handle, data)` prints a message,
disconnects and calls `sys.exit`.  Its observable behaviour is modelled as a
`DispatchResult`: which terminal outcome is reported and with which process
exit status.  The spec's `OperationOutcome` also names a `Timeout` outcome,
and its dispatch rules an "ignored" behaviour; the constructors exist below
so claims about them can be stated, but the source never produces them. -/

/-- The spec's `OperationOutcome` (§3).  The source dispatcher only ever
produces the first three; `timeout` is named by the spec but never built. -/
inductive OperationOutcome where
  | authKeyCaptured (key : List Nat)
  | switchSucceeded
  | switchFailed
  | timeout
  deriving DecidableEq

/-- What a delivered notification does to the process: terminate it with an
outcome and exit status, leave it running (`ignored`), or raise (`crash`). -/
inductive DispatchResult where
  | terminal (outcome : OperationOutcome) (exitCode : Nat)
  | ignored
  | crash
  deriving DecidableEq

/-- Lines 86-98.  `handle == AUTH_HANDLE` prints the key `data[3:]` and exits
with status 0; any other handle inspects `ord(data[-1])` (raising on an empty
payload): 0 prints `Switched!` and exits 0, nonzero prints failure and exits
1 (`sys.exit(0 if succeeded else 1)`). -/
def handleNotification (handle : Nat) (data : List Nat) : DispatchResult :=
  if handle = AUTH_HANDLE then
    DispatchResult.terminal (OperationOutcome.authKeyCaptured (data.drop 3)) 0
  else
    match data.getLast? with
    | some b =>
        if b = 0 then DispatchResult.terminal OperationOutcome.switchSucceeded 0
        else DispatchResult.terminal OperationOutcome.switchFailed 1
    | none => DispatchResult.crash

/-! ### Device protocol driver: GATT writes issued by `__main__` -/

/-- One `device.writeCharacteristic(handle, value, withResponse)` call
(`withResponse` defaults to `False` in bluepy when omitted). -/
structure WriteOp where
  handle : Nat
  value : List Nat
  withResponse : Bool
  deriving DecidableEq

/-- Lines 180-187, the `switch` branch: enable notifications on the
state-notify handle, then write `'\x01'` (`on`) or `'\x00'` (otherwise) to
the toggle-state handle, without response. -/
def switchWrites (isOn : Bool) : List WriteOp :=
  [⟨STATE_NOTIFY_HANDLE, NOTIFY_VALUE, true⟩,
   ⟨TOGGLE_STATE_HANDLE, [if isOn then 0x01 else 0x00], false⟩]

/-- Lines 188-190, the `auth` branch: enable notifications on the auth-notify
handle, then write `AUTH_INIT_VALUE` to the auth handle, both with response. -/
def authWrites : List WriteOp :=
  [⟨AUTH_NOTIFY_HANDLE, NOTIFY_VALUE, true⟩,
   ⟨AUTH_HANDLE, AUTH_INIT_VALUE, true⟩]

/-! ### The wait loop (lines 193-197)

`while True: device.waitForNotifications(1.0); print('.', ...)`.  Each slice
either delivers a notification — running `handleNotification` inline, which
terminates the process — or returns without one, and the loop continues.
Deliveries are modelled by an oracle giving, for each slice index, the
notification `(handle, data)` delivered during that slice, if any.  The
fuel argument observes a finite prefix of the infinite loop: `none` means the
loop is still running after that many slices. -/
def waitLoopFrom (oracle : Nat → Option (Nat × List Nat)) :
    Nat → Nat → Option DispatchResult
  | _, 0 => none
  | start, fuel + 1 =>
    match oracle start with
    | some e => some (handleNotification e.1 e.2)
    | none => waitLoopFrom oracle (start + 1) fuel

/-! ### Scan (lines 141-162) -/

/-- An advertising device as `scan` sees it: its address and its
`getScanData()` entries `(adtype, desc, value)`. -/
structure SMDevice where
  addr : String
  scanData : List (Nat × String × String)
  deriving DecidableEq

/-- A device's advertisement carries an entry of AD type 7 whose value is the
Switchmate service UUID (line 153's `is_switchmate` test succeeds on it). -/
def deviceMatches (dev : SMDevice) : Prop :=
  ∃ e ∈ dev.scanData, e.1 = SERVICES_AD_TYPE ∧ e.2.2 = SWITCHMATE_SERVICE

instance (dev : SMDevice) : Decidable (deviceMatches dev) :=
  List.decidableBEx _ dev.scanData

/-- Lines 152-155, the body of the outer `for dev in devices` loop: walk the
device's scan data and append `dev` to `switchmates` the first time a
matching entry is seen, unless it is already there. -/
def scanInner (dev : SMDevice) (acc : List SMDevice)
    (entries : List (Nat × String × String)) : List SMDevice :=
  entries.foldl
    (fun switchmates e =>
      if e.1 = SERVICES_AD_TYPE ∧ e.2.2 = SWITCHMATE_SERVICE ∧ dev ∉ switchmates
      then switchmates ++ [dev] else switchmates)
    acc

/-- Lines 141-155: collect, from the scanner's advertisements, the devices
whose scan data carries the Switchmate service UUID under AD type 7. -/
def scan (devices : List SMDevice) : List SMDevice :=
  devices.foldl (fun switchmates dev => scanInner dev switchmates dev.scanData) []

/-! ### Helper lemmas about `scan` -/

lemma scanInner_of_mem (dev : SMDevice) (acc : List SMDevice)
    (entries : List (Nat × String × String)) (hmem : dev ∈ acc) :
    scanInner dev acc entries = acc := by
  induction entries with
  | nil => rfl
  | cons e rest ih =>
    simp only [scanInner, List.foldl_cons] at ih ⊢
    rw [if_neg (by simp [hmem])]
    exact ih

lemma scanInner_eq (dev : SMDevice) (acc : List SMDevice)
    (entries : List (Nat × String × String)) :
    scanInner dev acc entries =
      if (∃ e ∈ entries, e.1 = SERVICES_AD_TYPE ∧ e.2.2 = SWITCHMATE_SERVICE) ∧ dev ∉ acc
      then acc ++ [dev] else acc := by
  induction entries generalizing acc with
  | nil => simp [scanInner]
  | cons e rest ih =>
    by_cases hc : e.1 = SERVICES_AD_TYPE ∧ e.2.2 = SWITCHMATE_SERVICE ∧ dev ∉ acc
    · have step : scanInner dev acc (e :: rest) = scanInner dev (acc ++ [dev]) rest := by
        simp only [scanInner, List.foldl_cons]
        rw [if_pos hc]
      rw [step, scanInner_of_mem dev (acc ++ [dev]) rest (by simp)]
      rw [if_pos ⟨⟨e, by simp, hc.1, hc.2.1⟩, hc.2.2⟩]
    · have step : scanInner dev acc (e :: rest) = scanInner dev acc rest := by
        simp only [scanInner, List.foldl_cons]
        rw [if_neg hc]
      rw [step, ih acc]
      by_cases hd : dev ∈ acc
      · rw [if_neg (by simp [hd]), if_neg (by simp [hd])]
      · have he : ¬(e.1 = SERVICES_AD_TYPE ∧ e.2.2 = SWITCHMATE_SERVICE) :=
          fun h => hc ⟨h.1, h.2, hd⟩
        apply if_congr _ rfl rfl
        constructor
        · rintro ⟨⟨e', he', hp⟩, -⟩
          exact ⟨⟨e', List.mem_cons_of_mem e he', hp⟩, hd⟩
        · rintro ⟨⟨e', he', hp⟩, -⟩
          rcases List.mem_cons.mp he' with h | h
          · exact absurd hp (h ▸ he)
          · exact ⟨⟨e', h, hp⟩, hd⟩

lemma scan_go_mem (devices : List SMDevice) :
    ∀ (acc : List SMDevice) (d : SMDevice),
      d ∈ devices.foldl (fun switchmates dev => scanInner dev switchmates dev.scanData) acc
        ↔ d ∈ acc ∨ (d ∈ devices ∧ deviceMatches d) := by
  induction devices with
  | nil => simp
  | cons dev rest ih =>
    intro acc d
    simp only [List.foldl_cons]
    rw [ih, scanInner_eq]
    by_cases hc : deviceMatches dev ∧ dev ∉ acc
    · rw [if_pos ⟨hc.1, hc.2⟩]
      simp only [List.mem_append, List.mem_cons, List.not_mem_nil, or_false]
      constructor
      · rintro ((h | rfl) | ⟨h1, h2⟩)
        · exact Or.inl h
        · exact Or.inr ⟨Or.inl rfl, hc.1⟩
        · exact Or.inr ⟨Or.inr h1, h2⟩
      · rintro (h | ⟨rfl | h1, h2⟩)
        · exact Or.inl (Or.inl h)
        · exact Or.inl (Or.inr rfl)
        · exact Or.inr ⟨h1, h2⟩
    · rw [if_neg (fun h => hc ⟨h.1, h.2⟩)]
      simp only [List.mem_cons]
      constructor
      · rintro (h | ⟨h1, h2⟩)
        · exact Or.inl h
        · exact Or.inr ⟨Or.inr h1, h2⟩
      · rintro (h | ⟨rfl | h1, h2⟩)
        · exact Or.inl h
        · rcases Decidable.not_and_iff_or_not.mp hc with h | h
          · exact absurd h2 h
          · exact Or.inl (Decidable.not_not.mp h)
        · exact Or.inr ⟨h1, h2⟩

lemma scan_go_nodup (devices : List SMDevice) :
    ∀ acc : List SMDevice, acc.Nodup →
      (devices.foldl (fun switchmates dev => scanInner dev switchmates dev.scanData) acc).Nodup := by
  induction devices with
  | nil => exact fun acc h => h
  | cons dev rest ih =>
    intro acc hacc
    simp only [List.foldl_cons]
    apply ih
    rw [scanInner_eq]
    by_cases hc : deviceMatches dev ∧ dev ∉ acc
    · rw [if_pos ⟨hc.1, hc.2⟩]
      simp [List.nodup_append, hacc, hc.2]
    · rw [if_neg (fun h => hc ⟨h.1, h.2⟩)]
      exact hacc

lemma signCombined_cons (d0 d1 : Nat) (rest key : List Nat) :
    ∃ x : Int, signCombined (d0 :: d1 :: rest) key =
      some (((x % 2 ^ 32).toNat <<< 16) ||| (d0 <<< 48) ||| (d1 <<< 56)) :=
  ⟨((d0 :: d1 :: rest) ++ key).foldl
    (fun (x : Int) (c : Nat) => Int.xor (Int.xor (c_mul 1000003 x) (c : Int))
      (((d0 :: d1 :: rest) ++ key).length : Int))
    ((d0 <<< 7 : Nat) : Int), rfl⟩

lemma handleNotification_ne_timeout (h : Nat) (d : List Nat) (c : Nat) :
    handleNotification h d ≠ DispatchResult.terminal OperationOutcome.timeout c := by
  unfold handleNotification
  split
  · simp
  · split
    · split <;> simp
    · simp

/-! ### Claim theorems -/

/-- Claim C2: a notification on the auth handle yields `AuthKeyCaptured` with
the payload bytes from offset 3 onward as the key; on any other handle, a
last payload byte of 0 yields `SwitchSucceeded` and a nonzero last byte
yields `SwitchFailed`. -/
theorem notification_dispatch_outcomes (handle : Nat) (data : List Nat) :
    (handle = AUTH_HANDLE →
      handleNotification handle data =
        DispatchResult.terminal (OperationOutcome.authKeyCaptured (data.drop 3)) 0) ∧
    (handle ≠ AUTH_HANDLE → ∀ b, data.getLast? = some b →
      (b = 0 → handleNotification handle data =
        DispatchResult.terminal OperationOutcome.switchSucceeded 0) ∧
      (b ≠ 0 → handleNotification handle data =
        DispatchResult.terminal OperationOutcome.switchFailed 1)) := by
  constructor
  · intro h
    simp [handleNotification, h]
  · intro h b hb
    constructor <;> intro hb0 <;> simp [handleNotification, h, hb, hb0]

theorem notification_dispatch_outcomes_witness :
    handleNotification 0x0016 [1, 2, 3, 4, 5] =
      DispatchResult.terminal (OperationOutcome.authKeyCaptured [4, 5]) 0 ∧
    handleNotification 0x002c [7] =
      DispatchResult.terminal OperationOutcome.switchFailed 1 :=
  ⟨(notification_dispatch_outcomes 0x0016 [1, 2, 3, 4, 5]).1 rfl,
   ((notification_dispatch_outcomes 0x002c [7]).2 (by decide) 7 rfl).2 (by decide)⟩

/-- Claim C3 counterexample: handle `0x0001` belongs to no operation (it is
none of the protocol handles), yet a notification on it with payload `[5]` is
not ignored — it is dispatched as a failed switch, terminating the in-flight
operation with exit status 1 — and with an empty payload the handler crashes
on `ord(data[-1])`. -/
theorem stray_notification_counterexample :
    handleNotification 0x0001 [0x05] =
      DispatchResult.terminal OperationOutcome.switchFailed 1 ∧
    handleNotification 0x0001 [0x05] ≠ DispatchResult.ignored ∧
    handleNotification 0x0001 [] = DispatchResult.crash := by
  decide

/-- Claim C3 (amended): a notification arriving on a handle that does not
belong to the armed operation is NOT ignored.  Any notification on a handle
other than the auth handle is interpreted as a switch result: it terminates
the in-flight operation with `SwitchSucceeded` (exit 0) when the last payload
byte is 0 and `SwitchFailed` (exit 1) otherwise, and it crashes the handler
when the payload is empty. -/
theorem stray_notification_terminates (handle : Nat) (data : List Nat)
    (h : handle ≠ AUTH_HANDLE) :
    handleNotification handle data ≠ DispatchResult.ignored ∧
    (data = [] → handleNotification handle data = DispatchResult.crash) ∧
    (∀ b, data.getLast? = some b →
      handleNotification handle data =
        DispatchResult.terminal
          (if b = 0 then OperationOutcome.switchSucceeded else OperationOutcome.switchFailed)
          (if b = 0 then 0 else 1)) := by
  refine ⟨?_, ?_, ?_⟩
  · cases hgl : data.getLast? with
    | none => simp [handleNotification, h, hgl]
    | some b => by_cases hb : b = 0 <;> simp [handleNotification, h, hgl, hb]
  · intro hd
    subst hd
    simp [handleNotification, h]
  · intro b hb
    by_cases hb0 : b = 0 <;> simp [handleNotification, h, hb, hb0]

theorem stray_notification_terminates_witness :
    handleNotification 0x002b [0] ≠ DispatchResult.ignored ∧
    handleNotification 0x002b [0] =
      DispatchResult.terminal OperationOutcome.switchSucceeded 0 :=
  ⟨(stray_notification_terminates 0x002b [0] (by decide)).1,
   (stray_notification_terminates 0x002b [0] (by decide)).2.2 0 rfl⟩

/-- Claim C4: whenever a terminal outcome is dispatched, the process exit
status is 0 for `SwitchSucceeded` and `AuthKeyCaptured` and 1 for
`SwitchFailed`. -/
theorem exit_code_distinguishes_failure (handle : Nat) (data : List Nat)
    (o : OperationOutcome) (c : Nat)
    (hterm : handleNotification handle data = DispatchResult.terminal o c) :
    ((o = OperationOutcome.switchSucceeded ∨
        ∃ k, o = OperationOutcome.authKeyCaptured k) → c = 0) ∧
    (o = OperationOutcome.switchFailed → c = 1) := by
  unfold handleNotification at hterm
  split at hterm
  · injection hterm with h1 h2
    subst h1
    subst h2
    constructor
    · intro _
      rfl
    · intro hbad
      simp at hbad
  · split at hterm
    · split at hterm
      · injection hterm with h1 h2
        subst h1
        subst h2
        constructor
        · intro _
          rfl
        · intro hbad
          simp at hbad
      · injection hterm with h1 h2
        subst h1
        subst h2
        constructor
        · rintro (hbad | ⟨k, hbad⟩) <;> simp at hbad
        · intro _
          rfl
    · exact DispatchResult.noConfusion hterm

theorem exit_code_distinguishes_failure_witness :
    handleNotification 0x002c [1] =
      DispatchResult.terminal OperationOutcome.switchFailed 1 ∧ (1 : Nat) = 1 :=
  ⟨rfl, (exit_code_distinguishes_failure 0x002c [1]
    OperationOutcome.switchFailed 1 rfl).2 rfl⟩

/-- Claim C7: the switch operation issues exactly two writes, in order: the
notification-enable bytes `01 00` to the state-notify handle `0x002c`, then
one byte — `0x01` for on, `0x00` for off — to the toggle-state handle
`0x0030`. -/
theorem switch_write_sequence (isOn : Bool) :
    switchWrites isOn =
      [⟨0x002c, [0x01, 0x00], true⟩,
       ⟨0x0030, [if isOn then 0x01 else 0x00], false⟩] := by
  cases isOn <;> rfl

/-- Claim C8: the authenticate operation issues exactly two writes, in order:
the notification-enable bytes `01 00` to the auth-notify handle `0x0017`,
then the fixed 6-byte value `00 00 00 00 01 00` to the auth handle `0x0016`. -/
theorem auth_write_sequence :
    authWrites =
      [⟨0x0017, [0x01, 0x00], true⟩,
       ⟨0x0016, [0x00, 0x00, 0x00, 0x00, 0x01, 0x00], true⟩] := rfl

/-- Claim C9: if the oracle never delivers a notification, the wait loop
never terminates (it is still running after every number of slices) and never
produces a `Timeout`; moreover the only way any run of the loop ends is a
terminal dispatch of a delivered notification, and no dispatch is ever a
`Timeout`. -/
theorem wait_loop_no_timeout (oracle : Nat → Option (Nat × List Nat)) :
    ((∀ k, oracle k = none) → ∀ start fuel, waitLoopFrom oracle start fuel = none) ∧
    (∀ start fuel r, waitLoopFrom oracle start fuel = some r →
      ∃ k e, oracle k = some e ∧ r = handleNotification e.1 e.2) ∧
    (∀ start fuel c, waitLoopFrom oracle start fuel ≠
      some (DispatchResult.terminal OperationOutcome.timeout c)) := by
  have part2 : ∀ start fuel r, waitLoopFrom oracle start fuel = some r →
      ∃ k e, oracle k = some e ∧ r = handleNotification e.1 e.2 := by
    intro start fuel
    induction fuel generalizing start with
    | zero => exact fun r hr => Option.noConfusion hr
    | succ n ih =>
      intro r hr
      cases horacle : oracle start with
      | none =>
        simp only [waitLoopFrom, horacle] at hr
        exact ih (start + 1) r hr
      | some e =>
        simp only [waitLoopFrom, horacle] at hr
        exact ⟨start, e, horacle, (Option.some.inj hr).symm⟩
  refine ⟨?_, part2, ?_⟩
  · intro hno start fuel
    induction fuel generalizing start with
    | zero => rfl
    | succ n ih =>
      simp only [waitLoopFrom, hno start]
      exact ih (start + 1)
  · intro start fuel c hr
    obtain ⟨k, e, hk, heq⟩ := part2 start fuel _ hr
    exact handleNotification_ne_timeout e.1 e.2 c heq.symm

theorem wait_loop_no_timeout_witness :
    waitLoopFrom (fun _ => none) 0 5 = none :=
  (wait_loop_no_timeout (fun _ => none)).1 (fun _ => rfl) 0 5

/-- Claim C1: for every byte sequence `data` of length at least 2 and every
byte sequence `key`, `sign(data, key)` equals the reference algorithm stated
by the specification (`signSpec`). -/
theorem sign_matches_reference (data key : List Nat)
    (hdata : isByteSeq data) (hkey : isByteSeq key) (hlen : 2 ≤ data.length) :
    sign data key = signSpec data key := by
  match data with
  | [] => simp at hlen
  | [d] => simp at hlen
  | d0 :: d1 :: rest =>
    simp only [sign, signCombined, signSpec, Option.map]
    rw [foldl_hash_eq]

theorem sign_matches_reference_witness :
    isByteSeq [1, 2] ∧ isByteSeq [3, 4, 5] ∧ 2 ≤ ([1, 2] : List Nat).length ∧
      sign [1, 2] [3, 4, 5] = signSpec [1, 2] [3, 4, 5] :=
  ⟨by decide, by decide, by decide,
   sign_matches_reference [1, 2] [3, 4, 5] (by decide) (by decide) (by decide)⟩

/-- Claim C5: for byte sequences `data` of length at least 2 and any byte
sequence `key`, `sign` returns exactly 6 bytes; for `data` with fewer than 2
bytes the signing operation raises and returns no token. -/
theorem sign_token_length (data key : List Nat)
    (hdata : isByteSeq data) (hkey : isByteSeq key) :
    (2 ≤ data.length → ∃ t, sign data key = some t ∧ t.length = 6) ∧
    (data.length < 2 → sign data key = none) := by
  match data with
  | [] =>
    refine ⟨fun h => ?_, fun _ => rfl⟩
    simp at h
  | [d] =>
    refine ⟨fun h => ?_, fun _ => rfl⟩
    simp at h
  | d0 :: d1 :: rest =>
    refine ⟨fun _ => ⟨_, rfl, ?_⟩, fun h => ?_⟩
    · simp [packUInt64LE]
    · simp at h
      omega

theorem sign_token_length_witness :
    isByteSeq [9, 9] ∧ ∃ t, sign [9, 9] [] = some t ∧ t.length = 6 :=
  ⟨by decide, (sign_token_length [9, 9] [] (by decide) (by decide)).1 (by decide)⟩

/-- Claim C6: `scan` returns exactly the devices whose advertisement carries
an AD-type-7 service entry equal to the Switchmate service UUID
`abd0f555eb40e7b2ac49ddeb83d32ba2`, with duplicates removed; devices
advertising any other value are excluded. -/
theorem scan_filters_switchmates (devices : List SMDevice) :
    (∀ d, d ∈ scan devices ↔
      d ∈ devices ∧ ∃ e ∈ d.scanData,
        e.1 = 7 ∧ e.2.2 = "abd0f555eb40e7b2ac49ddeb83d32ba2") ∧
    (scan devices).Nodup := by
  constructor
  · intro d
    rw [scan, scan_go_mem devices [] d]
    simp [deviceMatches, SERVICES_AD_TYPE, SWITCHMATE_SERVICE]
  · exact scan_go_nodup devices [] List.nodup_nil

/-- Claim C10: the low 16 bits of the combined 64-bit value packed by `sign`
are always zero — the two dropped bytes are `00 00` — and the last two bytes
of the 6-byte token are `data[0]` and `data[1]`. -/
theorem sign_low_bytes_zero (data key : List Nat)
    (hdata : isByteSeq data) (hlen : 2 ≤ data.length) :
    ∃ v t, signCombined data key = some v ∧ sign data key = some t ∧
      v % 2 ^ 16 = 0 ∧ (packUInt64LE v).take 2 = [0, 0] ∧
      t.drop 4 = data.take 2 := by
  match data with
  | [] => simp at hlen
  | [d] => simp at hlen
  | d0 :: d1 :: rest =>
    have hd0 : d0 < 256 := hdata d0 (by simp)
    have hd1 : d1 < 256 := hdata d1 (by simp)
    obtain ⟨x, hV⟩ := signCombined_cons d0 d1 rest key
    set h := (x % 2 ^ 32).toNat with hh_def
    have hhb : h < 2 ^ 32 := by
      have h1 : 0 ≤ x % 2 ^ 32 := Int.emod_nonneg x (by norm_num)
      have h2 : x % 2 ^ 32 < 2 ^ 32 := Int.emod_lt_of_pos x (by norm_num)
      rw [hh_def]
      omega
    obtain ⟨p1, p2, p3, p4, p5⟩ := pack_props h d0 d1 hhb hd0 hd1
    have hsum := or_decompose h d0 d1 hhb hd0
    refine ⟨_, (packUInt64LE (h <<< 16 ||| d0 <<< 48 ||| d1 <<< 56)).drop 2,
      hV, ?_, ?_, ?_, ?_⟩
    · rw [sign, hV]
      rfl
    · rw [hsum]
      exact p1
    · show [(h <<< 16 ||| d0 <<< 48 ||| d1 <<< 56) % 256,
        (h <<< 16 ||| d0 <<< 48 ||| d1 <<< 56) / 2 ^ 8 % 256] = [0, 0]
      rw [hsum, p2, p3]
    · show [(h <<< 16 ||| d0 <<< 48 ||| d1 <<< 56) / 2 ^ 48 % 256,
        (h <<< 16 ||| d0 <<< 48 ||| d1 <<< 56) / 2 ^ 56 % 256] = [d0, d1]
      rw [hsum, p4, p5]

theorem sign_low_bytes_zero_witness :
    isByteSeq [1, 2] ∧ 2 ≤ ([1, 2] : List Nat).length ∧
      ∃ v t, signCombined [1, 2] [3] = some v ∧ sign [1, 2] [3] = some t ∧
        v % 2 ^ 16 = 0 ∧ (packUInt64LE v).take 2 = [0, 0] ∧
        t.drop 4 = ([1, 2] : List Nat).take 2 :=
  ⟨by decide, by decide, sign_low_bytes_zero [1, 2] [3] (by decide) (by decide)⟩

end Switchmate
